import Mathlib

/-!
Verification of the webhook-to-execution coordination core of the
`claude-code-containers` Cloudflare Worker.

Strings manipulated by the TypeScript source are embedded as `List Char`;
JavaScript runtime values that may be absent (`undefined`/`null`, empty
strings being falsy) are embedded as `Option`; effectful calls (GitHub
comment creation, container invocation) are recorded as explicit effect
lists; calls that may throw are embedded with `Except` or a success flag.
All definitions are transcriptions of the source files
(`src/handlers/webhooks/github.ts`, `src/handlers/github_webhooks/issue-enhanced.ts.bak`,
`src/handlers/api` internal/container endpoints, `src/lib/adapters/types.ts`
(ProgressBridge) and `src/lib/adapters.bak/comment-manager.ts`).
-/

namespace CCC

/-! ## Generic string (List Char) utilities mirroring JS string methods -/

/-- JS `String.prototype.startsWith(pat)` on character lists. -/
def startsWithList : List Char → List Char → Bool
  | [], _ => true
  | _ :: _, [] => false
  | p :: ps, c :: cs => p = c && startsWithList ps cs

/-- JS `String.prototype.includes(needle)` (substring containment). -/
def containsSub : List Char → List Char → Bool
  | hay, needle =>
    match hay with
    | [] => needle.isEmpty
    | _ :: t => startsWithList needle hay || containsSub t needle

/-- JS `String.prototype.replace(pat, '')` with a string pattern:
removes the first occurrence of `pat` only. -/
def replaceFirst (pat : List Char) : List Char → List Char
  | [] => []
  | c :: cs =>
    if startsWithList pat (c :: cs) then (c :: cs).drop pat.length
    else c :: replaceFirst pat cs

/-- JS `String.prototype.toLowerCase()` (ASCII-adequate embedding). -/
def toLowerList (s : List Char) : List Char := s.map Char.toLower

/-- JS `String.prototype.split(sep)` with a single-character separator. -/
def splitOnCharList (sep : Char) : List Char → List (List Char)
  | [] => [[]]
  | c :: cs =>
    let rest := splitOnCharList sep cs
    if c = sep then [] :: rest
    else
      match rest with
      | [] => [[c]]
      | r :: rs => (c :: r) :: rs

/-- Decimal digit character. -/
def digitChar (n : Nat) : Char := Char.ofNat (48 + n)

/-- Fuel-driven helper for decimal rendering (structural recursion so that
terms evaluate inside the kernel). -/
def natCharsAux : Nat → Nat → List Char
  | 0, _ => []
  | fuel + 1, n =>
    if n < 10 then [digitChar n]
    else natCharsAux fuel (n / 10) ++ [digitChar (n % 10)]

/-- Decimal rendering of a natural number (JS template-literal `${n}`). -/
def natChars (n : Nat) : List Char := natCharsAux (n + 1) n

theorem natCharsAux_fuel_irrelevant (n : Nat) : ∀ f g : Nat, n < f → n < g →
    natCharsAux f n = natCharsAux g n := by
  induction n using Nat.strong_induction_on with
  | _ n ih =>
    intro f g hf hg
    match f, g with
    | f + 1, g + 1 =>
      by_cases h : n < 10
      · simp [natCharsAux, h]
      · simp only [natCharsAux, if_neg h]
        have hlt : n / 10 < n := Nat.div_lt_self (by omega) (by omega)
        rw [ih (n / 10) hlt f g (by omega) (by omega)]

/-- The recursive unfolding of `natChars`. -/
theorem natChars_eq (n : Nat) :
    natChars n = if n < 10 then [digitChar n] else natChars (n / 10) ++ [digitChar (n % 10)] := by
  have hunf : natCharsAux (n + 1) n =
      if n < 10 then [digitChar n] else natCharsAux n (n / 10) ++ [digitChar (n % 10)] := rfl
  rw [natChars, hunf]
  by_cases h : n < 10
  · rw [if_pos h, if_pos h]
  · rw [if_neg h, if_neg h, natChars,
      natCharsAux_fuel_irrelevant (n / 10) n (n / 10 + 1) (by omega) (by omega)]

/-- JS `parseInt` restricted to the shapes arising here: returns the number
denoted by the maximal leading run of decimal digits, `none` (NaN) when the
string does not start with a digit. -/
def jsParseInt (s : List Char) : Option Nat :=
  let digits := s.takeWhile (fun c => decide (48 ≤ c.toNat ∧ c.toNat ≤ 57))
  if digits.isEmpty then none
  else some (digits.foldl (fun acc c => acc * 10 + (c.toNat - 48)) 0)

/-- JS `Math.round` (round half toward positive infinity) of the
non-negative rational `num / den`. -/
def jsRound (num den : Nat) : Nat := (2 * num + den) / (2 * den)

/-! ## Signature verification (`verifyWebhookSignature`, webhooks/github.ts) -/

/-- Lowercase hex digit, as produced by JS `Number.prototype.toString(16)`. -/
def hexDigitChar (n : Nat) : Char :=
  if n < 10 then Char.ofNat (48 + n) else Char.ofNat (87 + n)

/-- Two-digit lowercase hex rendering of one byte:
`byte.toString(16).padStart(2, '0')`. -/
def byteToHex (b : Nat) : List Char := [hexDigitChar (b / 16), hexDigitChar (b % 16)]

/-- Hex rendering of a digest: `Array.from(hashArray).map(...).join('')`. -/
def bytesToHex (bs : List Nat) : List Char := bs.flatMap byteToHex

/-- The `sha256=` header prefix. -/
def sha256Prefix : List Char := "sha256=".toList

/-- Result of the credential lookup inside `verifyWebhookSignature`:
the DO fetch may fail (`.error`, caught by the try/catch or the `!ok`
check), succeed without a stored `webhookSecret` (`.ok none`), or yield
the secret bytes (`.ok (some s)`). -/
def CredLookup := Except Unit (Option (List Nat))

/-- `verifyWebhookSignature` from `src/handlers/webhooks/github.ts`
(lines 213-260). The HMAC-SHA256 primitive is a parameter
`hmac : secret → payload → Except Unit digest`, where `.error` embeds an
exception thrown by `crypto.subtle` (caught by the surrounding try/catch). -/
def verifyWebhookSignature (hmac : List Nat → List Nat → Except Unit (List Nat))
    (payload : List Nat) (signature : List Char) (creds : Except Unit (Option (List Nat))) :
    Bool :=
  if ¬ startsWithList sha256Prefix signature then false
  else
    match creds with
    | .error _ => false
    | .ok none => false
    | .ok (some secret) =>
      let sigHex := replaceFirst sha256Prefix signature
      match hmac secret payload with
      | .error _ => false
      | .ok digest => sigHex = bytesToHex digest

/-! ## Comment renderer progress bar
(`WorkersCommentManager.buildProgressBar`, adapters.bak/comment-manager.ts) -/

/-- The fields of `CommentProgress` consumed by `buildProgressBar`
(`filesProcessed?: number`, `totalFiles?: number`; absent fields are `none`). -/
structure CommentProgress where
  filesProcessed : Option Nat
  totalFiles : Option Nat

/-- JS truthiness of an optional number: `undefined` and `0` are falsy. -/
def truthyNum : Option Nat → Bool
  | none => false
  | some n => n ≠ 0

/-- `WorkersCommentManager.buildProgressBar` (comment-manager.ts lines
208-220): returns `null` unless both counts are truthy; otherwise
`percentage = Math.round(filesProcessed / totalFiles * 100)`,
`filled = Math.round(percentage / 5)`, `empty = 20 - filled`, and the bar
is `filled` full-block characters followed by `empty` light-shade
characters, rendered with the percentage and the file counts. -/
def buildProgressBar (p : CommentProgress) : Option (List Char) :=
  if ¬ (truthyNum p.filesProcessed ∧ truthyNum p.totalFiles) then none
  else
    match p.filesProcessed, p.totalFiles with
    | some fp, some tf =>
      let percentage := jsRound (fp * 100) tf
      let filled := jsRound percentage 5
      let empty := 20 - filled
      let bar := List.replicate filled '█' ++ List.replicate empty '░'
      some (Char.ofNat 96 :: bar ++ Char.ofNat 96 :: ' ' :: natChars percentage ++ "% (".toList ++
        natChars fp ++ '/' :: natChars tf ++ " files)".toList)
    | _, _ => none

/-! ## Execution-context identity
(`routeToMcpContainer` in issue-enhanced.ts.bak and the contextId parsing in
`updateGitHubProgressComment` / `handleFinalGitHubOperations`, internal API) -/

/-- ContextId generation from `routeToMcpContainer` (line 346):
the template literal `issue-` + repository.full_name + `-` + issue.number
+ `-` + Date.now(). -/
def mkContextId (fullName : List Char) (issueNumber now : Nat) : List Char :=
  "issue-".toList ++ fullName ++ '-' :: natChars issueNumber ++ '-' :: natChars now

/-- The fields recovered by the internal progress/completion handlers. -/
structure ParsedContextFields where
  owner : List Char
  repo : List Char
  issueNumber : Option Nat
  deriving DecidableEq, Repr

/-- ContextId parsing from `updateGitHubProgressComment` (internal API,
lines 297-322): split on `-`; reject fewer than 4 parts; take parts 1, 2
and `parseInt` of part 3; reject when owner or repo is empty or the
number is falsy (NaN or 0). -/
def parseContextId (contextId : List Char) : Option ParsedContextFields :=
  let contextParts := splitOnCharList '-' contextId
  if contextParts.length < 4 then none
  else
    let owner := contextParts.getD 1 []
    let repo := contextParts.getD 2 []
    let issueNumber := jsParseInt (contextParts.getD 3 [])
    if owner.isEmpty ∨ repo.isEmpty ∨ ¬ truthyNum issueNumber then none
    else some ⟨owner, repo, issueNumber⟩

/-! ## Issues event handler with MCP routing
(`handleIssuesEventMcp` / `routeToMcpContainer`, issue-enhanced.ts.bak) -/

/-- The issue fields the handler reads. -/
structure IssueData where
  id : Nat
  number : Nat
  title : List Char
  body : Option (List Char)
  labels : List (List Char)
  authorLogin : List Char

/-- The repository fields the handler reads. -/
structure RepoData where
  owner : List Char
  name : List Char
  fullName : List Char
  htmlUrl : List Char

/-- One `issues` webhook payload as consumed by `handleIssuesEventMcp`:
`action`, `issue`, `repository`, and the optional `assignee`, `label` and
`comment` fields probed by the trigger checks. -/
structure IssuesEventData where
  action : List Char
  issue : IssueData
  repository : RepoData
  assigneeLogin : Option (List Char)
  labelName : Option (List Char)
  commentBody : Option (List Char)

/-- Environment/collaborator behavior for one handler run: the GitHub
token fetch result, the stored Claude API key (absent key makes
`routeToMcpContainer` throw), whether the container fetch responds ok, and
whether each GitHub `createComment` call succeeds or throws. -/
structure McpEnv where
  githubToken : List Char
  claudeKey : Option (List Char)
  containerOk : Bool
  ackCommentOk : Bool
  errorCommentOk : Bool

/-- The kinds of comments `handleIssuesEventMcp` posts. -/
inductive CommentKind where
  | ackMcp           -- initial acknowledgment for action 'opened'
  | triggered        -- acknowledgment for assigned/labeled triggers
  | activated        -- acknowledgment for comment-phrase triggers
  | errorStarting    -- error comment from the 'opened' catch block
  | completionFinal  -- final completion comment (createCompletionComment)
  deriving DecidableEq, Repr

/-- Observable side effects of the worker handlers. -/
inductive Effect where
  | createComment (owner name : List Char) (number : Nat) (kind : CommentKind)
  | containerInvoke (contextId : List Char)
  deriving DecidableEq, Repr

/-- Is the effect a container invocation? -/
def Effect.isContainerInvoke : Effect → Bool
  | .containerInvoke _ => true
  | _ => false

/-- `routeToMcpContainer` (issue-enhanced.ts.bak lines 340-470): generates
the contextId, fetches credentials, and invokes the MCP container; throws
(`.error`) when the Claude key is missing or the container response is not
ok. The container is invoked (effect recorded) whenever credentials are
available, even if its response then fails. -/
def routeToMcpContainer (issue : IssueData) (repository : RepoData) (envr : McpEnv)
    (now : Nat) : List Effect × Except (List Char) Unit :=
  let contextId := mkContextId repository.fullName issue.number now
  match envr.claudeKey with
  | none => ([], .error "Claude API key not configured. Please visit /setup/claude first.".toList)
  | some _ =>
    if envr.containerOk then ([.containerInvoke contextId], .ok ())
    else ([.containerInvoke contextId], .error "MCP container execution failed".toList)

/-- Default trigger phrases scanned for in comment bodies
(issue-enhanced.ts.bak line 603). -/
def triggerPhrases : List (List Char) :=
  ["@claude".toList, "/claude".toList, "claude help".toList, "claude fix".toList]

/-- The `isTriggered` check of the comment branch: some trigger phrase is a
substring of the lowercased comment body (missing body coalesces to `''`). -/
def commentIsTriggered (commentBody : Option (List Char)) : Bool :=
  let body := toLowerList (commentBody.getD [])
  triggerPhrases.any (fun phrase => containsSub body phrase)

/-- The `shouldTrigger` check of the assigned/labeled branch
(issue-enhanced.ts.bak lines 564-572): assignment to a login containing
`claude` (case-sensitive `includes`), or a label whose lowercased name
contains `claude` or `ai-assist`. -/
def assignLabelShouldTrigger (action : List Char) (assigneeLogin labelName : Option (List Char)) :
    Bool :=
  (action = "assigned".toList && containsSub (assigneeLogin.getD []) "claude".toList) ||
  (action = "labeled".toList &&
    (containsSub (toLowerList (labelName.getD [])) "claude".toList ||
     containsSub (toLowerList (labelName.getD [])) "ai-assist".toList))

/-- `handleIssuesEventMcp` (issue-enhanced.ts.bak lines 475-637). Returns
the ordered list of observable effects and the HTTP status (always 200:
every branch falls through to `Response('Issues event processed...', 200)`,
all errors being caught). -/
def handleIssuesEventMcp (data : IssuesEventData) (envr : McpEnv) (now : Nat) :
    List Effect × Nat :=
  let issue := data.issue
  let repository := data.repository
  if data.action = "opened".toList then
    if envr.ackCommentOk then
      let ack := Effect.createComment repository.owner repository.name issue.number .ackMcp
      let (routeEffects, routeResult) := routeToMcpContainer issue repository envr now
      match routeResult with
      | .ok _ => (ack :: routeEffects, 200)
      | .error _ =>
        -- the catch block posts an error comment (itself in a try/catch)
        if envr.errorCommentOk then
          (ack :: routeEffects ++
            [Effect.createComment repository.owner repository.name issue.number .errorStarting], 200)
        else (ack :: routeEffects, 200)
    else
      -- initial createComment threw: the catch posts the error comment only
      if envr.errorCommentOk then
        ([Effect.createComment repository.owner repository.name issue.number .errorStarting], 200)
      else ([], 200)
  else if data.action = "assigned".toList ∨ data.action = "labeled".toList then
    if assignLabelShouldTrigger data.action data.assigneeLogin data.labelName then
      if envr.ackCommentOk then
        let ack := Effect.createComment repository.owner repository.name issue.number .triggered
        let (routeEffects, _) := routeToMcpContainer issue repository envr now
        -- errors are caught and only logged in this branch
        (ack :: routeEffects, 200)
      else ([], 200)
    else ([], 200)
  else if data.action = "comment".toList ∧ data.commentBody.isSome then
    if commentIsTriggered data.commentBody then
      if envr.ackCommentOk then
        let ack := Effect.createComment repository.owner repository.name issue.number .activated
        let (routeEffects, _) := routeToMcpContainer issue repository envr now
        (ack :: routeEffects, 200)
      else ([], 200)
    else ([], 200)
  else ([], 200)

/-! ## Webhook entry point and event routing
(`handleGitHubWebhook` / `routeWebhookEvent`, webhooks/github.ts) -/

/-- The parsed JSON webhook body fields the entry point reads, plus the
issues payload handed to `handleIssuesEventMcp` when the event routes
there. -/
structure WebhookPayload where
  zen : Option (List Char)
  installationAppId : Option Nat
  issuesData : IssuesEventData

/-- One inbound delivery as seen by `handleGitHubWebhook`: the method, the
three headers (absent = `null`), the fallback app-id header, and the body
parse result (`none` = `JSON.parse` threw). -/
structure WebhookRequest where
  methodPost : Bool
  signature : Option (List Char)
  event : Option (List Char)
  delivery : Option (List Char)
  hookTargetId : Option Nat
  payload : Option WebhookPayload

/-- Result of `routeWebhookEvent` (webhooks/github.ts lines 128-174):
either a stub acknowledgment (issue_comment / pull_request /
pull_request_review and the default branch, all status 200 with no
processing) or the issues handler's outcome. Installation events are
grouped as `otherHandled`. -/
inductive RouteOutcome where
  | issuesHandled (effects : List Effect) (status : Nat)
  | ackNotImplemented (event : List Char)
  | ackUnhandled (event : List Char)
  | otherHandled (event : List Char)
  deriving DecidableEq, Repr

/-- `routeWebhookEvent`: dispatch on the `x-github-event` value. -/
def routeWebhookEvent (event : List Char) (payload : WebhookPayload) (envr : McpEnv)
    (now : Nat) : RouteOutcome :=
  if event = "installation".toList ∨ event = "installation_repositories".toList then
    .otherHandled event
  else if event = "issues".toList then
    let (effects, status) := handleIssuesEventMcp payload.issuesData envr now
    .issuesHandled effects status
  else if event = "issue_comment".toList ∨ event = "pull_request".toList ∨
      event = "pull_request_review".toList then
    .ackNotImplemented event
  else
    .ackUnhandled event

/-- Effects produced by a routing outcome: only the issues handler has any. -/
def RouteOutcome.effects : RouteOutcome → List Effect
  | .issuesHandled effects _ => effects
  | _ => []

/-- HTTP status of a routing outcome (all acknowledgment stubs are
`jsonResponse`, status 200). -/
def RouteOutcome.status : RouteOutcome → Nat
  | .issuesHandled _ status => status
  | _ => 200

/-- Overall outcome of `handleGitHubWebhook` (webhooks/github.ts lines
15-123), in source order: method check (405), required-header check (400),
JSON parse (400), ping short-circuit (200 echoing `zen`), app-configuration
lookup (404), signature verification (401), then event routing. -/
inductive WebhookOutcome where
  | methodNotAllowed
  | missingHeaders
  | invalidJson
  | pingAck (zen : Option (List Char))
  | appNotConfigured
  | invalidSignature
  | routed (r : RouteOutcome)
  deriving DecidableEq, Repr

/-- `handleGitHubWebhook`. The signature check's verdict is the
`signatureValid` parameter (see `verifyWebhookSignature` for its own
contract); `now` feeds `Date.now()` inside the issues handler. -/
def handleGitHubWebhook (req : WebhookRequest) (envr : McpEnv) (signatureValid : Bool)
    (now : Nat) : WebhookOutcome :=
  if ¬ req.methodPost then .methodNotAllowed
  else if req.signature.isNone ∨ req.event.isNone ∨ req.delivery.isNone then .missingHeaders
  else
    match req.payload with
    | none => .invalidJson
    | some payload =>
      let event := req.event.getD []
      if event = "ping".toList then .pingAck payload.zen
      else if payload.installationAppId.isNone ∧ req.hookTargetId.isNone then .appNotConfigured
      else if ¬ signatureValid then .invalidSignature
      else .routed (routeWebhookEvent event payload envr now)

/-- HTTP status of the overall outcome. -/
def WebhookOutcome.status : WebhookOutcome → Nat
  | .methodNotAllowed => 405
  | .missingHeaders => 400
  | .invalidJson => 400
  | .pingAck _ => 200
  | .appNotConfigured => 404
  | .invalidSignature => 401
  | .routed r => r.status

/-- Effects of the overall outcome (nothing outside routed events). -/
def WebhookOutcome.effects : WebhookOutcome → List Effect
  | .routed r => r.effects
  | _ => []

/-! ## Internal completion endpoint and its store
(`handleCompletion`, internal API endpoints file) -/

/-- `CompletionNotification` as stored by the internal API. -/
structure CompletionNotification where
  contextId : List Char
  success : Bool
  message : List Char
  pullRequestUrl : Option (List Char)
  commentId : Option Nat
  error : Option (List Char)
  timestamp : Nat
  deriving DecidableEq, Repr

/-- The request body of `POST /api/v1/internal/completion/{contextId}`
(`Partial<CompletionNotification>`): fields may be absent. -/
structure CompletionBody where
  success : Option Bool
  message : Option (List Char)
  pullRequestUrl : Option (List Char)
  commentId : Option Nat
  error : Option (List Char)

/-- JS `Map.get`, on the association-list embedding of a `Map` keyed by
strings. -/
def mapGet {α : Type} (l : List (List Char × α)) (key : List Char) : Option α :=
  match l with
  | [] => none
  | (k, v) :: rest => if k = key then some v else mapGet rest key

/-- JS `Map.set` (overwrites an existing binding). -/
def mapSet {α : Type} (l : List (List Char × α)) (key : List Char) (val : α) :
    List (List Char × α) :=
  match l with
  | [] => [(key, val)]
  | (k, v) :: rest => if k = key then (k, val) :: rest else (k, v) :: mapSet rest key val

/-- JS `Map.delete`. -/
def mapDelete {α : Type} (l : List (List Char × α)) (key : List Char) :
    List (List Char × α) :=
  match l with
  | [] => []
  | (k, v) :: rest => if k = key then rest else (k, v) :: mapDelete rest key

/-- The module-level `completionStore` map, embedded as an association
list with `Map.set` overwrite semantics. -/
abbrev CompletionStore := List (List Char × CompletionNotification)

/-- `handleCompletion` (internal API, lines 105-166): rejects a falsy
contextId (400) and a body without a boolean `success` or a truthy
`message` (400); otherwise stamps `timestamp` with the current time,
**overwrites** any stored notification for the contextId and returns 200.
Returns the new store and the HTTP status. -/
def handleCompletion (store : CompletionStore) (contextId : List Char)
    (body : CompletionBody) (now : Nat) : CompletionStore × Nat :=
  if contextId.isEmpty then (store, 400)
  else
    match body.success, body.message with
    | some success, some message =>
      if message.isEmpty then (store, 400)
      else
        let completion : CompletionNotification :=
          ⟨contextId, success, message, body.pullRequestUrl, body.commentId, body.error, now⟩
        (mapSet store contextId completion, 200)
    | _, _ => (store, 400)

/-! ## ProgressBridge state registry
(`ProgressBridge`, lib/adapters/types.ts lines 190-361) -/

/-- `ProgressState` tracked per contextId. -/
structure ProgressState where
  contextId : List Char
  commentId : Nat
  currentStage : List Char
  startTime : Nat
  lastUpdate : Nat
  container : List Char
  deriving DecidableEq, Repr

/-- The `progressStates` map of one `ProgressBridge` instance. -/
abbrev ProgressStates := List (List Char × ProgressState)

/-- `ProgressBridge.generateContextId`: full_name + `/` + entityNumber +
`/` + Date.now(). -/
def generateContextId (fullName : List Char) (entityNumber now : Nat) : List Char :=
  fullName ++ '/' :: natChars entityNumber ++ '/' :: natChars now

/-- `ProgressBridge.initializeProgress`: unconditionally registers a fresh
state for the generated contextId (no check for an existing active context
on the same entity) and returns the contextId. -/
def initializeProgress (states : ProgressStates) (fullName : List Char)
    (entityNumber : Nat) (commentId : Nat) (containerId : List Char) (now : Nat) :
    ProgressStates × List Char :=
  let contextId := generateContextId fullName entityNumber now
  let st : ProgressState := ⟨contextId, commentId, "analyzing".toList, now, now, containerId⟩
  (mapSet states contextId st, contextId)

/-- `ProgressBridge.handleContainerCompletion` (types.ts lines 287-314):
when no state exists for the contextId it warns and returns (no comment);
otherwise it posts one **new** completion comment and deletes the state.
Returns the new states and the posted-comment effects. -/
def handleContainerCompletion (states : ProgressStates) (contextId : List Char)
    (owner name : List Char) (entityNumber : Nat) : ProgressStates × List Effect :=
  match mapGet states contextId with
  | none => (states, [])
  | some _ =>
    ((mapDelete states contextId),
     [Effect.createComment owner name entityNumber .completionFinal])

/-- One hour in milliseconds (`60 * 60 * 1000`). -/
def oneHourMs : Nat := 60 * 60 * 1000

/-- `ProgressBridge.cleanupStaleStates` (types.ts lines 333-342): deletes
every state whose `lastUpdate` is older than one hour, silently (no stage
transition, no comment). `now` is `Date.now()`. -/
def cleanupStaleStates (states : ProgressStates) (now : Nat) : ProgressStates :=
  states.filter (fun p => ¬ p.2.lastUpdate < now - oneHourMs)

/-! ## Container execution endpoint
(`executeIssueInContainer` / `validateExecutionRequest`, container API) -/

/-- `ContainerExecutionRequest.issueData`; fields are optional to embed
absent JSON fields (empty strings are falsy for the `!x` checks). -/
structure ExecIssueData where
  issueId : Option (List Char)
  issueNumber : Option (List Char)
  title : Option (List Char)
  description : Option (List Char)
  labels : List (List Char)
  repositoryUrl : Option (List Char)
  repositoryName : Option (List Char)
  author : Option (List Char)

/-- `ContainerExecutionRequest.credentials`. -/
structure ExecCredentials where
  githubToken : Option (List Char)
  anthropicApiKey : Option (List Char)

/-- `ContainerExecutionRequest.configuration`. -/
structure ExecConfiguration where
  customInstructions : Option (List Char)
  allowedTools : Option (List (List Char))
  maxExecutionTime : Option Int

/-- `ContainerExecutionRequest`. -/
structure ContainerExecutionRequest where
  contextId : Option (List Char)
  issueData : Option ExecIssueData
  credentials : Option ExecCredentials
  configuration : Option ExecConfiguration

/-- JS truthiness of an optional string (absent or empty is falsy). -/
def truthyStr : Option (List Char) → Bool
  | none => false
  | some s => ¬ s.isEmpty

/-- `validateExecutionRequest` (container API, lines 695-732): returns the
first applicable error message, or `none` for a valid request. -/
def validateExecutionRequest (request : ContainerExecutionRequest) : Option (List Char) :=
  if ¬ truthyStr request.contextId then
    some "contextId is required and must be a string".toList
  else
    match request.issueData with
    | none => some "issueData is required".toList
    | some issueData =>
      if ¬ (truthyStr issueData.issueId && truthyStr issueData.issueNumber &&
            truthyStr issueData.title && truthyStr issueData.repositoryUrl &&
            truthyStr issueData.repositoryName && truthyStr issueData.author) then
        some "issueData must include issueId, issueNumber, title, repositoryUrl, repositoryName, and author".toList
      else
        match request.credentials with
        | none => some "credentials are required".toList
        | some credentials =>
          if ¬ (truthyStr credentials.githubToken && truthyStr credentials.anthropicApiKey) then
            some "credentials must include githubToken and anthropicApiKey".toList
          else if ¬ startsWithList "sk-ant-".toList (credentials.anthropicApiKey.getD []) then
            some "Invalid Anthropic API key format".toList
          else
            match request.configuration with
            | some configuration =>
              match configuration.maxExecutionTime with
              | some t =>
                if t < 1 ∨ 30 < t then
                  some "maxExecutionTime must be between 1 and 30 minutes".toList
                else none
              | none => none
            | none => none

/-- Result of `executeIssueInContainer` (container API, lines 471-584):
the HTTP status and whether the container was invoked (`container.fetch`
reached). `containerOk` embeds the container's response status. -/
def executeIssueInContainer (request : ContainerExecutionRequest) (containerOk : Bool) :
    Nat × Bool :=
  match validateExecutionRequest request with
  | some _ => (400, false)
  | none => if containerOk then (200, true) else (500, true)

/-! ## Helper lemmas -/

theorem startsWithList_append (p rest : List Char) :
    startsWithList p (p ++ rest) = true := by
  induction p with
  | nil => simp [startsWithList]
  | cons c cs ih => simp [startsWithList, ih]

theorem exists_of_startsWithList {p s : List Char} (h : startsWithList p s = true) :
    ∃ rest, s = p ++ rest := by
  induction p generalizing s with
  | nil => exact ⟨s, rfl⟩
  | cons c cs ih =>
    cases s with
    | nil => simp [startsWithList] at h
    | cons d ds =>
      simp only [startsWithList, Bool.and_eq_true, decide_eq_true_eq] at h
      obtain ⟨rest, hrest⟩ := ih h.2
      exact ⟨rest, by simp [h.1, hrest]⟩

theorem replaceFirst_append (p rest : List Char) :
    replaceFirst p (p ++ rest) = rest := by
  cases p with
  | nil =>
    cases rest with
    | nil => rfl
    | cons c cs => simp [replaceFirst, startsWithList]
  | cons c cs =>
    show replaceFirst (c :: cs) (c :: (cs ++ rest)) = rest
    rw [replaceFirst]
    have hsw : startsWithList (c :: cs) (c :: (cs ++ rest)) = true :=
      startsWithList_append (c :: cs) rest
    simp only [hsw, if_pos]
    exact List.drop_left (c :: cs) rest

theorem mapGet_mapSet {α : Type} (l : List (List Char × α)) (key : List Char) (v : α) :
    mapGet (mapSet l key v) key = some v := by
  induction l with
  | nil => simp [mapGet, mapSet]
  | cons p rest ih =>
    obtain ⟨k, w⟩ := p
    by_cases hk : k = key
    · simp [mapGet, mapSet, hk]
    · simp [mapGet, mapSet, hk, ih]

theorem mapGet_eq_none_of_not_mem {α : Type} (l : List (List Char × α)) (key : List Char)
    (h : key ∉ l.map Prod.fst) : mapGet l key = none := by
  induction l with
  | nil => rfl
  | cons p rest ih =>
    obtain ⟨k, w⟩ := p
    simp only [List.map_cons, List.mem_cons, not_or] at h
    rw [mapGet, if_neg (fun hk => h.1 hk.symm)]
    exact ih h.2

theorem mapGet_mapDelete {α : Type} (l : List (List Char × α)) (key : List Char)
    (hnd : (l.map Prod.fst).Nodup) : mapGet (mapDelete l key) key = none := by
  induction l with
  | nil => rfl
  | cons p rest ih =>
    obtain ⟨k, w⟩ := p
    simp only [List.map_cons, List.nodup_cons] at hnd
    by_cases hk : k = key
    · subst hk
      rw [mapDelete, if_pos rfl]
      exact mapGet_eq_none_of_not_mem rest k hnd.1
    · rw [mapDelete, if_neg hk, mapGet, if_neg hk]
      exact ih hnd.2

theorem splitOnCharList_no_sep {sep : Char} {xs : List Char} (h : sep ∉ xs) :
    splitOnCharList sep xs = [xs] := by
  induction xs with
  | nil => rfl
  | cons c cs ih =>
    simp only [List.mem_cons, not_or] at h
    have hc : c ≠ sep := fun hcc => h.1 hcc.symm
    rw [splitOnCharList, ih h.2]
    simp [hc]

theorem splitOnCharList_append_cons (sep : Char) (xs ys : List Char) (h : sep ∉ xs) :
    splitOnCharList sep (xs ++ sep :: ys) = xs :: splitOnCharList sep ys := by
  induction xs with
  | nil => simp [splitOnCharList]
  | cons c cs ih =>
    simp only [List.mem_cons, not_or] at h
    have hc : c ≠ sep := fun hcc => h.1 hcc.symm
    rw [List.cons_append, splitOnCharList, ih h.2]
    simp [hc]

theorem digitChar_toNat {k : Nat} (h : k < 10) : (digitChar k).toNat = 48 + k := by
  interval_cases k <;> rfl

theorem natChars_digits (n : Nat) :
    ∀ c ∈ natChars n, 48 ≤ c.toNat ∧ c.toNat ≤ 57 := by
  induction n using Nat.strong_induction_on with
  | _ n ih =>
    intro c hc
    rw [natChars_eq] at hc
    by_cases h : n < 10
    · simp only [if_pos h, List.mem_singleton] at hc
      subst hc
      rw [digitChar_toNat h]
      omega
    · simp only [if_neg h, List.mem_append, List.mem_singleton] at hc
      rcases hc with hc | hc
      · exact ih (n / 10) (Nat.div_lt_self (by omega) (by omega)) c hc
      · subst hc
        rw [digitChar_toNat (Nat.mod_lt n (by omega))]
        have := Nat.mod_lt n (show 0 < 10 by omega)
        omega

theorem natChars_ne_nil (n : Nat) : natChars n ≠ [] := by
  rw [natChars_eq]
  by_cases h : n < 10
  · simp [h]
  · simp [h]

theorem dash_not_mem_natChars (n : Nat) : '-' ∉ natChars n := by
  intro h
  have hb := natChars_digits n '-' h
  rw [show ('-').toNat = 45 from rfl] at hb
  omega

theorem natChars_all_digits (n : Nat) :
    ∀ c ∈ natChars n, decide (48 ≤ c.toNat ∧ c.toNat ≤ 57) = true := by
  intro c hc
  have h := natChars_digits n c hc
  simpa using h

theorem foldl_digits_natChars (n : Nat) : ∀ a : Nat,
    (natChars n).foldl (fun acc c => acc * 10 + (c.toNat - 48)) a =
      a * 10 ^ (natChars n).length + n := by
  induction n using Nat.strong_induction_on with
  | _ n ih =>
    intro a
    rw [natChars_eq]
    by_cases h : n < 10
    · simp only [if_pos h, List.foldl_cons, List.foldl_nil, List.length_singleton]
      rw [digitChar_toNat h]
      omega
    · simp only [if_neg h, List.foldl_append, List.foldl_cons, List.foldl_nil,
        List.length_append, List.length_singleton]
      rw [ih (n / 10) (Nat.div_lt_self (by omega) (by omega)) a]
      rw [digitChar_toNat (Nat.mod_lt n (by omega))]
      rw [Nat.pow_succ]
      have hdm : 10 * (n / 10) + n % 10 = n := Nat.div_add_mod n 10
      have hassoc : a * 10 ^ (natChars (n / 10)).length * 10 =
          a * (10 ^ (natChars (n / 10)).length * 10) := by ring
      omega

theorem jsParseInt_natChars (n : Nat) : jsParseInt (natChars n) = some n := by
  rw [jsParseInt]
  have htake : (natChars n).takeWhile (fun c => decide (48 ≤ c.toNat ∧ c.toNat ≤ 57)) =
      natChars n := by
    rw [List.takeWhile_eq_self_iff]
    exact natChars_all_digits n
  rw [htake]
  have hne : (natChars n).isEmpty = false := by
    cases h : natChars n with
    | nil => exact absurd h (natChars_ne_nil n)
    | cons c cs => rfl
  simp only [hne, Bool.false_eq_true, if_false]
  rw [foldl_digits_natChars n 0]
  simp

/-! ## Claim theorems -/

/-- C2. Webhook signature verification is exact and fail-closed:
`verifyWebhookSignature` returns `true` iff the signature header is
exactly `sha256=` followed by the full lowercase hex rendering of the
HMAC-SHA256 digest of the raw body under the stored webhook secret; a
header without the `sha256=` prefix or with any differing digest character
yields `false`, and a failed credential lookup, a missing stored secret,
or an exception in the HMAC computation all yield `false` instead of
propagating. -/
theorem verifyWebhookSignature_exact_and_fail_closed
    (hmac : List Nat → List Nat → Except Unit (List Nat))
    (payload : List Nat) (signature : List Char) (secret digest : List Nat)
    (hdig : hmac secret payload = .ok digest) :
    (verifyWebhookSignature hmac payload signature (.ok (some secret)) = true ↔
      signature = sha256Prefix ++ bytesToHex digest) ∧
    (∀ e, verifyWebhookSignature hmac payload signature (.error e) = false) ∧
    verifyWebhookSignature hmac payload signature (.ok none) = false ∧
    (∀ (hmacBad : List Nat → List Nat → Except Unit (List Nat)) (s : List Nat),
      hmacBad s payload = .error () →
      verifyWebhookSignature hmacBad payload signature (.ok (some s)) = false) := by
  refine ⟨?_, ?_, ?_, ?_⟩
  · constructor
    · intro h
      by_cases hsw : startsWithList sha256Prefix signature = true
      · obtain ⟨rest, hrest⟩ := exists_of_startsWithList hsw
        subst hrest
        simp only [verifyWebhookSignature, startsWithList_append, Bool.not_true,
          Bool.false_eq_true, if_false, hdig, decide_eq_true_eq, replaceFirst_append] at h
        simp only [not_true, if_neg, if_false, decide_eq_true_eq] at h
        rw [h]
      · simp [verifyWebhookSignature, hsw] at h
    · intro h
      subst h
      have hsw : startsWithList sha256Prefix (sha256Prefix ++ bytesToHex digest) = true :=
        startsWithList_append _ _
      simp only [verifyWebhookSignature, hsw, Bool.not_true, Bool.false_eq_true, if_false, hdig]
      rw [replaceFirst_append]
      simp
  · intro e
    by_cases hsw : startsWithList sha256Prefix signature = true <;>
      simp [verifyWebhookSignature, hsw]
  · by_cases hsw : startsWithList sha256Prefix signature = true <;>
      simp [verifyWebhookSignature, hsw]
  · intro hmacBad s hbad
    by_cases hsw : startsWithList sha256Prefix signature = true <;>
      simp [verifyWebhookSignature, hsw, hbad]

/-- C2 witness: a concrete HMAC result, secret and matching header verify
to `true`. -/
theorem verifyWebhookSignature_exact_and_fail_closed_witness :
    verifyWebhookSignature (fun _ _ => .ok [171, 1]) [10, 20] "sha256=ab01".toList
      (.ok (some [5, 6])) = true :=
  (verifyWebhookSignature_exact_and_fail_closed (fun _ _ => .ok [171, 1]) [10, 20]
    "sha256=ab01".toList [5, 6] [171, 1] rfl).1.mpr (by decide)

/-- C8. A POST delivery carrying `X-GitHub-Event: ping` with all required
headers present and a JSON body that parses short-circuits: the handler
returns status 200 echoing the payload's `zen` field, bypasses event
routing entirely (the outcome is the ping acknowledgment, not a routed
one), and produces no side effects, so no ExecutionContext is created. -/
theorem handleGitHubWebhook_ping_short_circuit (req : WebhookRequest) (envr : McpEnv)
    (signatureValid : Bool) (now : Nat) (payload : WebhookPayload)
    (hm : req.methodPost = true) (hs : req.signature.isSome = true)
    (he : req.event = some "ping".toList) (hd : req.delivery.isSome = true)
    (hp : req.payload = some payload) :
    handleGitHubWebhook req envr signatureValid now = .pingAck payload.zen ∧
    (handleGitHubWebhook req envr signatureValid now).status = 200 ∧
    (handleGitHubWebhook req envr signatureValid now).effects = [] := by
  rcases Option.isSome_iff_exists.mp hs with ⟨sv, hsv⟩
  rcases Option.isSome_iff_exists.mp hd with ⟨dv, hdv⟩
  have hmain : handleGitHubWebhook req envr signatureValid now = .pingAck payload.zen := by
    rw [handleGitHubWebhook, if_neg (by simp [hm]), if_neg (by simp [hsv, hdv, he]), hp]
    simp [he]
  exact ⟨hmain, by rw [hmain]; rfl, by rw [hmain]; rfl⟩

/-- A concrete issues-event payload used by several witnesses. -/
def sampleIssuesData : IssuesEventData :=
  ⟨"opened".toList, ⟨7, 42, "t".toList, none, [], "alice".toList⟩,
    ⟨"acme".toList, "widgets".toList, "acme/widgets".toList, "u".toList⟩,
    none, none, none⟩

/-- A concrete ping delivery. -/
def samplePingRequest : WebhookRequest :=
  ⟨true, some "sig".toList, some "ping".toList, some "d1".toList, none,
    some ⟨some "keep it logically awesome".toList, some 1, sampleIssuesData⟩⟩

/-- A concrete collaborator environment with every call succeeding. -/
def sampleOkEnv : McpEnv := ⟨"tok".toList, some "sk-ant-k".toList, true, true, true⟩

/-- C8 witness: a concrete ping delivery short-circuits with its zen. -/
theorem handleGitHubWebhook_ping_short_circuit_witness :
    handleGitHubWebhook samplePingRequest sampleOkEnv false 1000 =
      .pingAck (some "keep it logically awesome".toList) :=
  (handleGitHubWebhook_ping_short_circuit samplePingRequest sampleOkEnv false 1000
    ⟨some "keep it logically awesome".toList, some 1, sampleIssuesData⟩
    rfl rfl rfl rfl rfl).1

/-- C6. For an `issues` event with action `opened` (which always
triggers), the initial acknowledgment comment is the first effect,
preceding any container hand-off; and if the initial comment post throws,
no container execution is started (the catch block posts at most an error
comment, never invokes the container). -/
theorem handleIssuesEventMcp_ack_before_handoff (data : IssuesEventData) (envr : McpEnv)
    (now : Nat) (hact : data.action = "opened".toList) :
    (envr.ackCommentOk = true →
      ∃ rest, (handleIssuesEventMcp data envr now).1 =
        Effect.createComment data.repository.owner data.repository.name
          data.issue.number .ackMcp :: rest) ∧
    (envr.ackCommentOk = false →
      ((handleIssuesEventMcp data envr now).1.all fun e => !e.isContainerInvoke) = true) := by
  constructor
  · intro hack
    cases hkey : envr.claudeKey <;> cases hcont : envr.containerOk <;>
      cases herr : envr.errorCommentOk <;>
      simp [handleIssuesEventMcp, hact, hack, routeToMcpContainer, hkey, hcont, herr]
  · intro hack
    cases herr : envr.errorCommentOk <;>
      simp [handleIssuesEventMcp, hact, hack, herr, Effect.isContainerInvoke]

/-- An environment where the initial `createComment` call throws. -/
def sampleAckFailEnv : McpEnv := ⟨"tok".toList, some "sk-ant-k".toList, true, false, true⟩

/-- C6 witness: with a failing initial comment post on a concrete opened
event, no effect is a container invocation. -/
theorem handleIssuesEventMcp_ack_before_handoff_witness :
    ((handleIssuesEventMcp sampleIssuesData sampleAckFailEnv 1000).1.all
      fun e => !e.isContainerInvoke) = true :=
  (handleIssuesEventMcp_ack_before_handoff sampleIssuesData sampleAckFailEnv 1000 rfl).2 rfl

/-- C1 counterexample. Two `opened` deliveries in rapid succession for the
same `(repository, issueNumber)` each create their own execution context
and each invoke the container; the second returns 200 with its own
container invocation instead of a reject: the code never checks for an
already-active context. -/
theorem two_opened_triggers_both_execute :
    ((handleIssuesEventMcp sampleIssuesData sampleOkEnv 1000).1.countP
      (·.isContainerInvoke) = 1) ∧
    ((handleIssuesEventMcp sampleIssuesData sampleOkEnv 1001).1.countP
      (·.isContainerInvoke) = 1) ∧
    (handleIssuesEventMcp sampleIssuesData sampleOkEnv 1001).2 = 200 ∧
    (handleIssuesEventMcp sampleIssuesData sampleOkEnv 1001).1 =
      [Effect.createComment "acme".toList "widgets".toList 42 .ackMcp,
       Effect.containerInvoke (mkContextId "acme/widgets".toList 42 1001)] := by
  refine ⟨by decide, by decide, rfl, rfl⟩

/-- C1 amended. There is no one-active-context enforcement: every `opened`
trigger unconditionally generates a fresh contextId embedding its
timestamp and invokes the container, so two rapid triggers on the same
`(repository, entityNumber)` each run (returning 200), with contextIds
differing only in the `Date.now()` suffix; no reject path exists. -/
theorem handleIssuesEventMcp_no_active_context_check (data : IssuesEventData)
    (envr : McpEnv) (t1 t2 : Nat) (hact : data.action = "opened".toList)
    (hack : envr.ackCommentOk = true) (hkey : envr.claudeKey.isSome = true) :
    ((handleIssuesEventMcp data envr t1).1.countP (·.isContainerInvoke) = 1) ∧
    ((handleIssuesEventMcp data envr t2).1.countP (·.isContainerInvoke) = 1) ∧
    Effect.containerInvoke (mkContextId data.repository.fullName data.issue.number t1) ∈
      (handleIssuesEventMcp data envr t1).1 ∧
    Effect.containerInvoke (mkContextId data.repository.fullName data.issue.number t2) ∈
      (handleIssuesEventMcp data envr t2).1 ∧
    (handleIssuesEventMcp data envr t1).2 = 200 ∧
    (handleIssuesEventMcp data envr t2).2 = 200 := by
  rcases Option.isSome_iff_exists.mp hkey with ⟨key, hkeyv⟩
  cases hcont : envr.containerOk <;> cases herr : envr.errorCommentOk <;>
    simp [handleIssuesEventMcp, hact, hack, routeToMcpContainer, hkeyv, hcont, herr,
      List.countP_cons, Effect.isContainerInvoke]

/-- C1 witness: concrete instantiation of the amended statement at two
successive timestamps. -/
theorem handleIssuesEventMcp_no_active_context_check_witness :
    ((handleIssuesEventMcp sampleIssuesData sampleOkEnv 2000).1.countP
      (·.isContainerInvoke) = 1) ∧
    ((handleIssuesEventMcp sampleIssuesData sampleOkEnv 2001).1.countP
      (·.isContainerInvoke) = 1) ∧
    Effect.containerInvoke (mkContextId "acme/widgets".toList 42 2000) ∈
      (handleIssuesEventMcp sampleIssuesData sampleOkEnv 2000).1 ∧
    Effect.containerInvoke (mkContextId "acme/widgets".toList 42 2001) ∈
      (handleIssuesEventMcp sampleIssuesData sampleOkEnv 2001).1 ∧
    (handleIssuesEventMcp sampleIssuesData sampleOkEnv 2000).2 = 200 ∧
    (handleIssuesEventMcp sampleIssuesData sampleOkEnv 2001).2 = 200 :=
  handleIssuesEventMcp_no_active_context_check sampleIssuesData sampleOkEnv 2000 2001
    rfl rfl rfl

/-- An issues payload whose `comment` field carries a trigger phrase. -/
def sampleCommentData : IssuesEventData :=
  ⟨"comment".toList, ⟨7, 42, "t".toList, none, [], "alice".toList⟩,
    ⟨"acme".toList, "widgets".toList, "acme/widgets".toList, "u".toList⟩,
    none, none, some "hey @Claude can you help".toList⟩

/-- C5 counterexample. A `x-github-event: issue_comment` delivery whose
comment body contains the trigger phrase `@claude` (case-insensitively) is
only acknowledged by `routeWebhookEvent` as a not-yet-implemented stub: no
trigger decision is produced and no processing starts, even though the
trigger-phrase predicate matches the body. -/
theorem issue_comment_trigger_not_processed :
    commentIsTriggered (some "hey @Claude can you help".toList) = true ∧
    routeWebhookEvent "issue_comment".toList ⟨none, some 1, sampleCommentData⟩
      sampleOkEnv 1000 = .ackNotImplemented "issue_comment".toList ∧
    (routeWebhookEvent "issue_comment".toList ⟨none, some 1, sampleCommentData⟩
      sampleOkEnv 1000).effects = [] := by
  refine ⟨by decide, rfl, rfl⟩

/-- C5 amended. The comment-bearing webhook events are never routed to any
trigger logic: `issue_comment` and `pull_request_review` hit the
"not yet implemented" stubs and `pull_request_review_comment` the default
acknowledgment, all status 200 with no effects. The only trigger-phrase
matching in the code sits in the issues handler's `action == 'comment'`
branch, which starts processing (one container invocation) iff the
lowercased body contains one of `@claude`, `/claude`, `claude help`,
`claude fix`, and produces no effects otherwise. -/
theorem comment_events_acknowledged_only (payload : WebhookPayload) (envr : McpEnv)
    (now : Nat) (data : IssuesEventData) (hact : data.action = "comment".toList)
    (hbody : data.commentBody.isSome = true) (hack : envr.ackCommentOk = true)
    (hkey : envr.claudeKey.isSome = true) :
    (routeWebhookEvent "issue_comment".toList payload envr now).effects = [] ∧
    (routeWebhookEvent "pull_request_review".toList payload envr now).effects = [] ∧
    (routeWebhookEvent "pull_request_review_comment".toList payload envr now).effects = [] ∧
    (routeWebhookEvent "issue_comment".toList payload envr now).status = 200 ∧
    (commentIsTriggered data.commentBody = true →
      (handleIssuesEventMcp data envr now).1.countP (·.isContainerInvoke) = 1) ∧
    (commentIsTriggered data.commentBody = false →
      (handleIssuesEventMcp data envr now).1 = [] ∧
      (handleIssuesEventMcp data envr now).2 = 200) := by
  refine ⟨rfl, rfl, rfl, rfl, ?_, ?_⟩
  · intro htrig
    rcases Option.isSome_iff_exists.mp hkey with ⟨key, hkeyv⟩
    cases hcont : envr.containerOk <;>
      simp [handleIssuesEventMcp, hact, hbody, htrig, hack, routeToMcpContainer, hkeyv,
        hcont, List.countP_cons, Effect.isContainerInvoke]
  · intro htrig
    simp [handleIssuesEventMcp, hact, hbody, htrig]

/-- C5 witness: concrete instantiation on a triggering comment payload. -/
theorem comment_events_acknowledged_only_witness :
    (routeWebhookEvent "issue_comment".toList ⟨none, some 1, sampleCommentData⟩
      sampleOkEnv 1000).effects = [] ∧
    (routeWebhookEvent "pull_request_review".toList ⟨none, some 1, sampleCommentData⟩
      sampleOkEnv 1000).effects = [] ∧
    (routeWebhookEvent "pull_request_review_comment".toList ⟨none, some 1, sampleCommentData⟩
      sampleOkEnv 1000).effects = [] ∧
    (routeWebhookEvent "issue_comment".toList ⟨none, some 1, sampleCommentData⟩
      sampleOkEnv 1000).status = 200 ∧
    (commentIsTriggered sampleCommentData.commentBody = true →
      (handleIssuesEventMcp sampleCommentData sampleOkEnv 1000).1.countP
        (·.isContainerInvoke) = 1) ∧
    (commentIsTriggered sampleCommentData.commentBody = false →
      (handleIssuesEventMcp sampleCommentData sampleOkEnv 1000).1 = [] ∧
      (handleIssuesEventMcp sampleCommentData sampleOkEnv 1000).2 = 200) :=
  comment_events_acknowledged_only ⟨none, some 1, sampleCommentData⟩ sampleOkEnv 1000
    sampleCommentData rfl rfl rfl rfl

/-- C7 counterexample. For repository `acme/widgets`, issue 42, timestamp
1000, splitting the generated contextId on `-` does **not** recover the
owner, repo and issue number: the repository full name contains a slash,
not a hyphen, so the second component is the whole `acme/widgets`, the
third is the issue number string, and the integer parse of the fourth is
the timestamp 1000, not 42. -/
theorem parseContextId_fields_mismatch :
    parseContextId (mkContextId "acme/widgets".toList 42 1000) =
      some ⟨"acme/widgets".toList, "42".toList, some 1000⟩ ∧
    parseContextId (mkContextId "acme/widgets".toList 42 1000) ≠
      some ⟨"acme".toList, "widgets".toList, some 42⟩ := by
  decide

/-- C7 amended. For any repository full name containing no hyphen, the
contextId `issue-{fullName}-{n}-{ts}` splits into exactly
`["issue", fullName, n, ts]`, so the progress/completion handlers recover
the **full name** (owner and repo joined by the slash) in their `owner`
field, the decimal issue number string in their `repo` field, and the
**timestamp** as their parsed issue number. -/
theorem parseContextId_mkContextId (fullName : List Char) (n ts : Nat)
    (hdash : '-' ∉ fullName) (hne : fullName ≠ []) (hts : 0 < ts) :
    parseContextId (mkContextId fullName n ts) = some ⟨fullName, natChars n, some ts⟩ := by
  have h1 : mkContextId fullName n ts =
      "issue".toList ++ '-' :: (fullName ++ '-' :: (natChars n ++ '-' :: natChars ts)) := by
    simp [mkContextId]
  have hsplit : splitOnCharList '-' (mkContextId fullName n ts) =
      ["issue".toList, fullName, natChars n, natChars ts] := by
    rw [h1, splitOnCharList_append_cons '-' _ _ (by decide),
      splitOnCharList_append_cons '-' _ _ hdash,
      splitOnCharList_append_cons '-' _ _ (dash_not_mem_natChars n),
      splitOnCharList_no_sep (dash_not_mem_natChars ts)]
  rw [parseContextId, hsplit]
  simp [List.getD, jsParseInt_natChars, truthyNum, hne, natChars_ne_nil n,
    Nat.pos_iff_ne_zero.mp hts]

/-- C7 witness: concrete instantiation of the amended parse result. -/
theorem parseContextId_mkContextId_witness :
    parseContextId (mkContextId "acme/widgets".toList 7 1234) =
      some ⟨"acme/widgets".toList, natChars 7, some 1234⟩ :=
  parseContextId_mkContextId "acme/widgets".toList 7 1234 (by decide) (by decide)
    (by decide)

theorem count_natChars_of_gt (n : Nat) (c : Char) (hc : 57 < c.toNat) :
    (natChars n).count c = 0 := by
  rw [List.count_eq_zero]
  intro hmem
  have := natChars_digits n c hmem
  omega

/-- C9 counterexample. For `filesProcessed = 1`, `totalFiles = 8` the
rendered progress bar contains 3 filled segments, while
`floor(filesProcessed / totalFiles * 20) = floor(2.5) = 2`: the code
rounds twice (`Math.round(percentage)` then `Math.round(percentage / 5)`)
instead of taking the floor of the 20-scaled fraction. -/
theorem buildProgressBar_not_floor :
    ((buildProgressBar ⟨some 1, some 8⟩).getD []).count '█' = 3 ∧
    1 * 20 / 8 = 2 := by
  decide

/-- C9 amended. For `0 < filesProcessed ≤ totalFiles` the bar always has
exactly 20 segments, and the number of filled segments is
`round(round(filesProcessed / totalFiles * 100) / 5)` with half-up
rounding (which can exceed `floor(filesProcessed / totalFiles * 20)` by
one). -/
theorem buildProgressBar_rounded_segments (fp tf : Nat) (h1 : 0 < fp) (h2 : fp ≤ tf) :
    ((buildProgressBar ⟨some fp, some tf⟩).getD []).count '█' =
      jsRound (jsRound (fp * 100) tf) 5 ∧
    ((buildProgressBar ⟨some fp, some tf⟩).getD []).count '█' +
      ((buildProgressBar ⟨some fp, some tf⟩).getD []).count '░' = 20 := by
  have htf : 0 < tf := lt_of_lt_of_le h1 h2
  have hP : jsRound (fp * 100) tf < 101 := by
    rw [jsRound, Nat.div_lt_iff_lt_mul (by omega : 0 < 2 * tf)]
    omega
  have hF : jsRound (jsRound (fp * 100) tf) 5 ≤ 20 := by
    rw [jsRound]
    have hb : 2 * jsRound (fp * 100) tf + 5 ≤ 205 := by omega
    calc (2 * jsRound (fp * 100) tf + 5) / (2 * 5) ≤ 205 / (2 * 5) :=
          Nat.div_le_div_right hb
      _ = 20 := by norm_num
  have hbar : (buildProgressBar ⟨some fp, some tf⟩).getD [] =
      Char.ofNat 96 :: (List.replicate (jsRound (jsRound (fp * 100) tf) 5) '█' ++
        List.replicate (20 - jsRound (jsRound (fp * 100) tf) 5) '░') ++
      Char.ofNat 96 :: ' ' :: natChars (jsRound (fp * 100) tf) ++ "% (".toList ++
      natChars fp ++ '/' :: natChars tf ++ " files)".toList := by
    rw [buildProgressBar,
      if_neg (by simp [truthyNum]; omega)]
    rfl
  rw [hbar]
  have hseg1 : "% (".toList = ['%', ' ', '('] := rfl
  have hseg2 : " files)".toList = [' ', 'f', 'i', 'l', 'e', 's', ')'] := rfl
  rw [hseg1, hseg2]
  constructor
  · simp [List.count_cons, List.count_append, List.count_replicate_self,
      List.count_replicate, count_natChars_of_gt]
  · simp [List.count_cons, List.count_append, List.count_replicate_self,
      List.count_replicate, count_natChars_of_gt]
    omega

/-- C9 witness: concrete instantiation of the amended segment count. -/
theorem buildProgressBar_rounded_segments_witness :
    ((buildProgressBar ⟨some 5, some 10⟩).getD []).count '█' =
      jsRound (jsRound (5 * 100) 10) 5 ∧
    ((buildProgressBar ⟨some 5, some 10⟩).getD []).count '█' +
      ((buildProgressBar ⟨some 5, some 10⟩).getD []).count '░' = 20 :=
  buildProgressBar_rounded_segments 5 10 (by decide) (by decide)

/-- A concrete valid completion body. -/
def sampleCompletionBody : CompletionBody := ⟨some true, some "Done".toList, none, none, none⟩

/-- C3 counterexample. Delivering the same completion notification twice
for one contextId is **not** an idempotent no-op at the completion
endpoint: the second delivery overwrites the stored notification with a
re-stamped timestamp (observable via the execution-status endpoint) and is
answered 200 again, instead of being ignored. -/
theorem handleCompletion_duplicate_not_ignored :
    mapGet (handleCompletion
        (handleCompletion ([] : CompletionStore) "ctx1".toList sampleCompletionBody 1000).1
        "ctx1".toList sampleCompletionBody 2000).1 "ctx1".toList ≠
      mapGet (handleCompletion ([] : CompletionStore) "ctx1".toList
        sampleCompletionBody 1000).1 "ctx1".toList ∧
    (handleCompletion
        (handleCompletion ([] : CompletionStore) "ctx1".toList sampleCompletionBody 1000).1
        "ctx1".toList sampleCompletionBody 2000).2 = 200 := by
  decide

/-- C3 amended. Only the ProgressBridge half of the claim holds: its first
completion for a tracked contextId posts exactly one final comment and
evicts the state, so a duplicate call posts nothing and leaves the
registry unchanged. The completion endpoint, however, does not ignore
duplicates: it overwrites the stored notification, re-stamping its
timestamp with the second arrival time, and returns 200 again. -/
theorem completion_duplicate_semantics (states : ProgressStates) (cid : List Char)
    (owner name : List Char) (n : Nat) (st : ProgressState)
    (hst : mapGet states cid = some st) (hnd : (states.map Prod.fst).Nodup)
    (store : CompletionStore) (sc : Bool) (msg : List Char) (body : CompletionBody)
    (t1 t2 : Nat) (hcid : cid.isEmpty = false) (hbs : body.success = some sc)
    (hbm : body.message = some msg) (hmsg : msg.isEmpty = false) :
    (handleContainerCompletion states cid owner name n).2 =
      [Effect.createComment owner name n .completionFinal] ∧
    handleContainerCompletion (handleContainerCompletion states cid owner name n).1
      cid owner name n = ((handleContainerCompletion states cid owner name n).1, []) ∧
    mapGet (handleCompletion (handleCompletion store cid body t1).1 cid body t2).1 cid =
      some ⟨cid, sc, msg, body.pullRequestUrl, body.commentId, body.error, t2⟩ ∧
    (handleCompletion (handleCompletion store cid body t1).1 cid body t2).2 = 200 := by
  have hfirst : handleContainerCompletion states cid owner name n =
      (mapDelete states cid, [Effect.createComment owner name n .completionFinal]) := by
    rw [handleContainerCompletion, hst]
  have hdel : mapGet (mapDelete states cid) cid = none := mapGet_mapDelete states cid hnd
  have hsecond : handleContainerCompletion (mapDelete states cid) cid owner name n =
      (mapDelete states cid, []) := by
    rw [handleContainerCompletion, hdel]
  have hcomp : ∀ (s : CompletionStore) (t : Nat), handleCompletion s cid body t =
      (mapSet s cid ⟨cid, sc, msg, body.pullRequestUrl, body.commentId, body.error, t⟩,
        200) := by
    intro s t
    rw [handleCompletion, if_neg (by simp [hcid]), hbs, hbm]
    simp [hmsg]
  refine ⟨by rw [hfirst], by rw [hfirst]; exact hsecond, ?_, ?_⟩
  · rw [hcomp store t1]
    rw [hcomp _ t2]
    exact mapGet_mapSet _ cid _
  · rw [hcomp store t1, hcomp _ t2]

/-- Fixtures for the C3 witness. -/
def sampleProgressState : ProgressState :=
  ⟨"ctx1".toList, 5, "analyzing".toList, 1000, 1000, "cont".toList⟩

/-- C3 witness: concrete instantiation of the amended duplicate-delivery
behavior. -/
theorem completion_duplicate_semantics_witness :
    (handleContainerCompletion [("ctx1".toList, sampleProgressState)] "ctx1".toList
      "acme".toList "widgets".toList 42).2 =
      [Effect.createComment "acme".toList "widgets".toList 42 .completionFinal] ∧
    handleContainerCompletion
      (handleContainerCompletion [("ctx1".toList, sampleProgressState)] "ctx1".toList
        "acme".toList "widgets".toList 42).1 "ctx1".toList "acme".toList "widgets".toList 42 =
      ((handleContainerCompletion [("ctx1".toList, sampleProgressState)] "ctx1".toList
        "acme".toList "widgets".toList 42).1, []) ∧
    mapGet (handleCompletion
        (handleCompletion ([] : CompletionStore) "ctx1".toList sampleCompletionBody 1000).1
        "ctx1".toList sampleCompletionBody 2000).1 "ctx1".toList =
      some ⟨"ctx1".toList, true, "Done".toList, none, none, none, 2000⟩ ∧
    (handleCompletion
        (handleCompletion ([] : CompletionStore) "ctx1".toList sampleCompletionBody 1000).1
        "ctx1".toList sampleCompletionBody 2000).2 = 200 :=
  completion_duplicate_semantics [("ctx1".toList, sampleProgressState)] "ctx1".toList
    "acme".toList "widgets".toList 42 sampleProgressState rfl (by decide)
    ([] : CompletionStore) true "Done".toList sampleCompletionBody 1000 2000
    rfl rfl rfl rfl

/-- A progress state last updated at epoch-millisecond 1000000000. -/
def sampleStaleState : ProgressState :=
  ⟨"ctx".toList, 1, "analyzing".toList, 1000000000, 1000000000, "cont".toList⟩

/-- C4 counterexample. A context idle for 11 minutes — longer than the
claimed 10-minute default — is **not** evicted: the only cleanup in the
code (`cleanupStaleStates`) uses a one-hour threshold; and when the state
is old enough (2 hours here) it is silently removed — the cleanup returns
only the shrunken registry, never a failed transition or a timeout
comment. -/
theorem cleanupStaleStates_not_ten_minutes :
    cleanupStaleStates [("ctx".toList, sampleStaleState)] (1000000000 + 660000) =
      [("ctx".toList, sampleStaleState)] ∧
    cleanupStaleStates [("ctx".toList, sampleStaleState)] (1000000000 + 7200000) = [] := by
  decide

/-- C4 amended. Stale-state eviction exists only with a one-hour
threshold: an entry survives `cleanupStaleStates` iff its `lastUpdate` is
not older than one hour before `now`, eviction is silent (no stage change,
no comment — the operation returns only the filtered registry), and a
fresh trigger is accepted at any time regardless, because
`initializeProgress` unconditionally registers a new context for its
freshly generated contextId. -/
theorem cleanupStaleStates_one_hour_threshold (states : ProgressStates) (now : Nat)
    (cid fullName containerId : List Char) (st : ProgressState)
    (entityNumber commentId t : Nat) (hmem : (cid, st) ∈ states) :
    ((cid, st) ∈ cleanupStaleStates states now ↔ ¬ st.lastUpdate < now - oneHourMs) ∧
    mapGet (initializeProgress states fullName entityNumber commentId containerId t).1
      (generateContextId fullName entityNumber t) =
      some ⟨generateContextId fullName entityNumber t, commentId, "analyzing".toList,
        t, t, containerId⟩ := by
  constructor
  · rw [cleanupStaleStates]
    rw [List.mem_filter]
    simp [hmem]
  · rw [initializeProgress]
    exact mapGet_mapSet _ _ _

/-- C4 witness: concrete instantiation of the amended eviction rule. -/
theorem cleanupStaleStates_one_hour_threshold_witness :
    (("ctx".toList, sampleStaleState) ∈
        cleanupStaleStates [("ctx".toList, sampleStaleState)] (1000000000 + 660000) ↔
      ¬ sampleStaleState.lastUpdate < (1000000000 + 660000) - oneHourMs) ∧
    mapGet (initializeProgress [("ctx".toList, sampleStaleState)] "acme/widgets".toList
        42 5 "cont2".toList 7777).1 (generateContextId "acme/widgets".toList 42 7777) =
      some ⟨generateContextId "acme/widgets".toList 42 7777, 5, "analyzing".toList,
        7777, 7777, "cont2".toList⟩ :=
  cleanupStaleStates_one_hour_threshold [("ctx".toList, sampleStaleState)]
    (1000000000 + 660000) "ctx".toList "acme/widgets".toList "cont2".toList
    sampleStaleState 42 5 7777 (by decide)

/-- The validation condition on a `ContainerExecutionRequest`, spelled out
field by field: truthy contextId, issueData present with its six required
truthy fields, credentials present and truthy with an `sk-ant-` key, and
any provided `maxExecutionTime` within 1..30 minutes. -/
def requestPassesChecks (r : ContainerExecutionRequest) : Prop :=
  truthyStr r.contextId = true ∧
  (∃ d, r.issueData = some d ∧ truthyStr d.issueId = true ∧
    truthyStr d.issueNumber = true ∧ truthyStr d.title = true ∧
    truthyStr d.repositoryUrl = true ∧ truthyStr d.repositoryName = true ∧
    truthyStr d.author = true) ∧
  (∃ c, r.credentials = some c ∧ truthyStr c.githubToken = true ∧
    truthyStr c.anthropicApiKey = true ∧
    startsWithList "sk-ant-".toList (c.anthropicApiKey.getD []) = true) ∧
  (∀ cfg t, r.configuration = some cfg → cfg.maxExecutionTime = some t →
    1 ≤ t ∧ t ≤ 30)

/-- C10. `executeIssueInContainer` returns 400 and performs no container
invocation exactly when `validateExecutionRequest` rejects, and validation
passes precisely under the enumerated checks: contextId present and
non-empty; issueData with issueId, issueNumber, title, repositoryUrl,
repositoryName and author; credentials with githubToken and an
anthropicApiKey starting with `sk-ant-`; and any provided
maxExecutionTime within 1 to 30 minutes. The container is invoked only
for requests passing all checks. -/
theorem executeIssueInContainer_validation (r : ContainerExecutionRequest)
    (containerOk : Bool) :
    (validateExecutionRequest r = none ↔ requestPassesChecks r) ∧
    (¬ requestPassesChecks r → executeIssueInContainer r containerOk = (400, false)) ∧
    ((executeIssueInContainer r containerOk).2 = true → requestPassesChecks r) := by
  have hiff : validateExecutionRequest r = none ↔ requestPassesChecks r := by
    by_cases hctx : truthyStr r.contextId = true
    · cases hid : r.issueData with
      | none => simp [validateExecutionRequest, requestPassesChecks, hctx, hid]
      | some d =>
        by_cases hd6 : (truthyStr d.issueId && truthyStr d.issueNumber &&
            truthyStr d.title && truthyStr d.repositoryUrl &&
            truthyStr d.repositoryName && truthyStr d.author) = true
        · obtain ⟨⟨⟨⟨⟨h1, h2⟩, h3⟩, h4⟩, h5⟩, h6⟩ := by
            simpa only [Bool.and_eq_true] using hd6
          cases hcred : r.credentials with
          | none =>
            simp [validateExecutionRequest, requestPassesChecks, hctx, hid, hcred,
              h1, h2, h3, h4, h5, h6]
          | some c =>
            by_cases hc2 : (truthyStr c.githubToken && truthyStr c.anthropicApiKey) = true
            · obtain ⟨hg, ha⟩ := by simpa only [Bool.and_eq_true] using hc2
              by_cases hsk : startsWithList "sk-ant-".toList
                  (c.anthropicApiKey.getD []) = true
              · have hsk2 : startsWithList ['s', 'k', '-', 'a', 'n', 't', '-']
                    (c.anthropicApiKey.getD []) = true := hsk
                cases hcfg : r.configuration with
                | none =>
                  simp [validateExecutionRequest, requestPassesChecks, hctx, hid, hcred,
                    hcfg, h1, h2, h3, h4, h5, h6, hg, ha, hsk, hsk2]
                | some cfg =>
                  cases hmt : cfg.maxExecutionTime with
                  | none =>
                    have hval : validateExecutionRequest r = none := by
                      simp [validateExecutionRequest, hctx, hid, hcred, hcfg, hmt,
                        h1, h2, h3, h4, h5, h6, hg, ha, hsk, hsk2]
                    rw [hval]
                    constructor
                    · intro _
                      refine ⟨hctx, ⟨d, hid, h1, h2, h3, h4, h5, h6⟩,
                        ⟨c, hcred, hg, ha, hsk⟩, ?_⟩
                      intro cfg2 t2 hcfg2 hmt2
                      rw [hcfg] at hcfg2
                      injection hcfg2 with hcfg2
                      subst hcfg2
                      rw [hmt] at hmt2
                      cases hmt2
                    · intro _
                      rfl
                  | some t =>
                    by_cases ht : t < 1 ∨ 30 < t
                    · have hval : validateExecutionRequest r =
                          some "maxExecutionTime must be between 1 and 30 minutes".toList := by
                        simp [validateExecutionRequest, hctx, hid, hcred, hcfg, hmt,
                          h1, h2, h3, h4, h5, h6, hg, ha, hsk, hsk2, ht]
                      rw [hval]
                      constructor
                      · intro h; cases h
                      · rintro ⟨-, -, -, hall⟩
                        exact absurd (hall cfg t hcfg hmt) (by omega)
                    · have hval : validateExecutionRequest r = none := by
                        simp [validateExecutionRequest, hctx, hid, hcred, hcfg, hmt,
                          h1, h2, h3, h4, h5, h6, hg, ha, hsk, hsk2, ht]
                      rw [hval]
                      constructor
                      · intro _
                        refine ⟨hctx, ⟨d, hid, h1, h2, h3, h4, h5, h6⟩,
                          ⟨c, hcred, hg, ha, hsk⟩, ?_⟩
                        intro cfg2 t2 hcfg2 hmt2
                        rw [hcfg] at hcfg2
                        injection hcfg2 with hcfg2
                        subst hcfg2
                        rw [hmt] at hmt2
                        injection hmt2 with hmt2
                        omega
                      · intro _
                        rfl
              · rw [Bool.not_eq_true] at hsk
                simp only [validateExecutionRequest, requestPassesChecks, hctx, hid,
                  hcred, h1, h2, h3, h4, h5, h6, hg, ha, hsk, Bool.and_self,
                  Bool.not_true, Bool.not_false, Bool.false_eq_true, if_false, if_true]
                constructor
                · intro h; cases h
                · rintro ⟨-, -, ⟨c2, hc2eq, -, -, hsk2⟩, -⟩
                  cases hc2eq
                  rw [hsk] at hsk2
                  cases hsk2
            · rw [Bool.not_eq_true] at hc2
              simp only [validateExecutionRequest, requestPassesChecks, hctx, hid,
                hcred, h1, h2, h3, h4, h5, h6, hc2, Bool.and_self, Bool.not_true,
                Bool.not_false, Bool.false_eq_true, if_false, if_true]
              constructor
              · intro h; cases h
              · rintro ⟨-, -, ⟨c2, hc2eq, hg2, ha2, -⟩, -⟩
                cases hc2eq
                rw [hg2, ha2] at hc2
                cases hc2
        · rw [Bool.not_eq_true] at hd6
          simp only [validateExecutionRequest, requestPassesChecks, hctx, hid, hd6,
            Bool.not_true, Bool.not_false, Bool.false_eq_true, if_false, if_true]
          constructor
          · intro h; cases h
          · rintro ⟨-, ⟨d2, hd2eq, g1, g2, g3, g4, g5, g6⟩, -, -⟩
            cases hd2eq
            rw [g1, g2, g3, g4, g5, g6] at hd6
            cases hd6
    · rw [Bool.not_eq_true] at hctx
      constructor
      · intro h
        rw [validateExecutionRequest, if_pos (by simp [hctx])] at h
        cases h
      · rintro ⟨hc, -⟩
        rw [hctx] at hc
        cases hc
  refine ⟨hiff, ?_, ?_⟩
  · intro hnot
    cases hv : validateExecutionRequest r with
    | none => exact absurd (hiff.mp hv) hnot
    | some msg => rw [executeIssueInContainer, hv]
  · intro hinv
    cases hv : validateExecutionRequest r with
    | none => exact hiff.mp hv
    | some msg =>
      rw [executeIssueInContainer, hv] at hinv
      simp at hinv

/-- C10 witness: a request with every field missing is rejected with 400
and no container invocation. -/
theorem executeIssueInContainer_validation_witness :
    executeIssueInContainer ⟨none, none, none, none⟩ true = (400, false) :=
  (executeIssueInContainer_validation ⟨none, none, none, none⟩ true).2.1
    (fun h => by simp [requestPassesChecks, truthyStr] at h)

end CCC
